import Mathlib

/-!
Verification of the PRE (proxy re-encryption) engine of the
secure-cloud-storage-server repository (`src/py/crypto.py`).

The repository's own code is a thin command surface over the NAL16b PRE
scheme and the serialization helpers.  The scheme operations
(`pre.setup`, `pre.keygen`, `pre.encrypt`, `pre.rekeygen`,
`pre.re_encrypt`, `pre.decrypt`) and the group element byte codecs
(`objectToBytes` / `bytesToObject`) live in the external `charm` library,
so they are modelled here from the specification (§4.1, §4.2 of the spec):

* The bilinear pairing group of prime order `q` is modelled in the
  exponent: the element `g0 ^ a` of the source group (for a fixed base
  `g0`) is represented by `a : ZMod q`, and likewise a target group
  element `e(g0, g0) ^ t` is represented by `t : ZMod q`.  Group
  multiplication becomes addition of exponents, exponentiation becomes
  multiplication by the scalar, and the bilinear pairing
  `e(g0^a, g0^b) = e(g0,g0)^(a*b)` becomes multiplication of exponents.
* The residue group is `ZMod p` for a prime modulus `p`; a message is a
  natural number (the integer value of its byte string), embeddable iff
  it is `< p`.
* Division by a secret exponent (`publicOfDelegatee ^ (1/secretOfDelegator)`)
  is realised by the Fermat inverse `a ^ (q - 2)`, which agrees with the
  field inverse on every non-zero element of `ZMod q` for prime `q` and
  keeps every definition kernel-computable.
-/

set_option maxRecDepth 4000

namespace SecureCloudPRE

/-- Error taxonomy of the scheme core (spec §7). -/
inductive PREError where
  | wrongLevel
  | payloadTooLarge
  | malformedInput
deriving DecidableEq, Repr

/-- Modelled from the spec: the `SchemeParameters` bundle produced by
`Setup` (missing `charm` scheme code `pre.setup`).  `g` is the exponent of
the drawn pairing-group generator with respect to the fixed base, and `h`
is the fixed residue-group base used to derive the payload mask. -/
structure Params (q p : Nat) where
  g : ZMod q
  h : ZMod p
deriving DecidableEq

/-- Modelled from the spec: a ciphertext is a named bundle whose
components are pairing-group elements except for the single residue-group
payload component `c3`; it exists at exactly two levels (spec §3).
Level-2 carries the encapsulation components `c1 = g^r`, `c2 = pk^r`;
Level-1 carries the single pairing-target-group element produced by
`ReEncrypt` plus the untouched payload. -/
inductive Ciphertext (q p : Nat) where
  | level2 (c1 c2 : ZMod q) (c3 : ZMod p)
  | level1 (c1 : ZMod q) (c3 : ZMod p)
deriving DecidableEq, Repr

/-- Fermat inverse in the pairing group's scalar field: `a ^ (q - 2)`,
the kernel-computable realisation of `1 / a` for prime `q`. -/
def zinv (q : Nat) (a : ZMod q) : ZMod q := a ^ (q - 2)

/-- Fermat inverse in the residue group: `a ^ (p - 2)`. -/
def rinv (p : Nat) (a : ZMod p) : ZMod p := a ^ (p - 2)

/-- Modelled from the spec: `Setup` returns the public parameter bundle
built from the freshly drawn randomness (missing `charm` code
`pre.setup`); the randomness is threaded explicitly. -/
def setup (q p : Nat) (gRand : ZMod q) (hRand : ZMod p) : Params q p :=
  ⟨gRand, hRand⟩

/-- Modelled from the spec: `KeyGen` draws a random scalar `x`, sets
`secretKey = x` and `publicKey = generator ^ x` (missing `charm` code
`pre.keygen`); the random scalar is threaded explicitly.  In the exponent
model the public key `g^x = g0^(g*x)` is represented by `pp.g * x`. -/
def keygen (q p : Nat) (pp : Params q p) (x : ZMod q) : ZMod q × ZMod q :=
  (pp.g * x, x)

/-- Modelled from the spec: `encodeMessage` embeds a byte string's integer
value into the residue group, failing with `PayloadTooLarge` if the value
is `≥` the modulus (spec §4.1). -/
def encodeMessage (p : Nat) (m : Nat) : Except PREError (ZMod p) :=
  if m < p then .ok (m : ZMod p) else .error .payloadTooLarge

/-- Modelled from the spec: `decodeMessage` maps a residue-group element
back to the integer value of the byte string. -/
def decodeMessage (p : Nat) (e : ZMod p) : Nat := e.val

/-- Modelled from the spec: `Encrypt` (missing `charm` code
`pre.encrypt`).  With fresh randomness `r` it outputs the Level-2
ciphertext with encapsulation components `c1 = g^r`, `c2 = pk^r` and
payload `encodeMessage(m) * h ^ Z`, where the mask exponent `Z` is the
pairing-derived value `e(g,g)^r` (exponent `pp.g * pp.g * r`).  Fails
with `PayloadTooLarge` when the message cannot be embedded. -/
def encrypt (q p : Nat) (pp : Params q p) (pk : ZMod q) (m : Nat)
    (r : ZMod q) : Except PREError (Ciphertext q p) :=
  match encodeMessage p m with
  | .error e => .error e
  | .ok mv =>
      .ok (.level2 (pp.g * r) (pk * r)
        (mv * pp.h ^ (pp.g * pp.g * r).val))

/-- Modelled from the spec: `ReKeyGen` computes
`publicOfDelegatee ^ (1 / secretOfDelegator)` (missing `charm` code
`pre.rekeygen`; the unused placeholder arguments of the observed call
site are dropped).  In the exponent model this is `pkb * ska⁻¹`, with the
inverse realised by `zinv`. -/
def rekeygen (q : Nat) (ska : ZMod q) (pkb : ZMod q) : ZMod q :=
  pkb * zinv q ska

/-- Modelled from the spec: `ReEncrypt` (missing `charm` code
`pre.re_encrypt`).  On a Level-2 ciphertext it pairs the re-encryption
key with the encapsulation component `c2`, replacing the pairing-group
components by the single target-group element `e(c2, rk)` (exponent
`c2 * rk`) and carrying the payload through unchanged; on a Level-1
ciphertext it fails with `WrongLevel` (single-hop invariant). -/
def re_encrypt (q p : Nat) (pp : Params q p) (rk : ZMod q) :
    Ciphertext q p → Except PREError (Ciphertext q p)
  | .level2 _ c2 c3 => .ok (.level1 (c2 * rk) c3)
  | .level1 _ _ => .error .wrongLevel

/-- Modelled from the spec: `Decrypt` (missing `charm` code
`pre.decrypt`).  It requires a Level-1 ciphertext: it recomputes the mask
from the single encapsulation component and the secret key
(`h ^ (c1 ^ (1/sk))`, exponent `c1 * sk⁻¹`), removes it from the payload
via the residue group's inverse operation and decodes the integer.  On a
Level-2 ciphertext it fails with `WrongLevel`.  No integrity check is
performed. -/
def decrypt (q p : Nat) (pp : Params q p) (sk : ZMod q) :
    Ciphertext q p → Except PREError Nat
  | .level1 c1 c3 =>
      .ok (decodeMessage p (c3 * rinv p (pp.h ^ (c1 * zinv q sk).val)))
  | .level2 _ _ _ => .error .wrongLevel

/-- Fermat inverse agrees with the field inverse on non-zero elements. -/
lemma zinv_eq_inv (q : Nat) (hq : q.Prime) (a : ZMod q) (ha : a ≠ 0) :
    zinv q a = a⁻¹ := by
  haveI := Fact.mk hq
  have h2 : q - 2 + 1 = q - 1 := by have := hq.two_le; omega
  have hmul : zinv q a * a = 1 := by
    rw [zinv, ← pow_succ, h2, ZMod.pow_card_sub_one_eq_one ha]
  exact eq_inv_of_mul_eq_one_left hmul

/-- Fermat inverse in the residue group agrees with the field inverse. -/
lemma rinv_eq_inv (p : Nat) (hp : p.Prime) (a : ZMod p) (ha : a ≠ 0) :
    rinv p a = a⁻¹ := by
  haveI := Fact.mk hp
  have h2 : p - 2 + 1 = p - 1 := by have := hp.two_le; omega
  have hmul : rinv p a * a = 1 := by
    rw [rinv, ← pow_succ, h2, ZMod.pow_card_sub_one_eq_one ha]
  exact eq_inv_of_mul_eq_one_left hmul

/-- Removing the mask from the payload component recovers the embedded
message. -/
lemma payload_unmask (p : Nat) (hp : p.Prime) (h : ZMod p) (hh : h ≠ 0)
    (m : Nat) (hm : m < p) (e : Nat) :
    decodeMessage p ((m : ZMod p) * h ^ e * rinv p (h ^ e)) = m := by
  haveI := Fact.mk hp
  have hM : h ^ e ≠ 0 := pow_ne_zero _ hh
  rw [decodeMessage, rinv_eq_inv p hp _ hM, mul_assoc, mul_inv_cancel₀ hM,
    mul_one, ZMod.val_cast_of_lt hm]

/-- General delegation correctness of the modelled scheme: encrypting for
the key pair of exponent `a`, re-encrypting with the key delegating to
the pair of exponent `b`, and decrypting with `b` recovers the message. -/
lemma pre_delegation_correct (q p : Nat) (hq : q.Prime) (hp : p.Prime)
    (γ : ZMod q) (h : ZMod p) (a b r : ZMod q) (m : Nat)
    (ha : a ≠ 0) (hb : b ≠ 0) (hh : h ≠ 0) (hm : m < p) :
    ((encrypt q p ⟨γ, h⟩ (γ * a) m r).bind fun c =>
      (re_encrypt q p ⟨γ, h⟩ (rekeygen q a (γ * b)) c).bind fun c1 =>
        decrypt q p ⟨γ, h⟩ b c1) = .ok m := by
  haveI := Fact.mk hq
  have hE : γ * a * r * (γ * b * zinv q a) * zinv q b = γ * γ * r := by
    rw [zinv_eq_inv q hq a ha, zinv_eq_inv q hq b hb]
    field_simp
    ring
  simp only [encrypt, encodeMessage, if_pos hm, Except.bind, rekeygen,
    re_encrypt, decrypt, hE]
  exact congrArg Except.ok (payload_unmask p hp h hh m hm _)

/-- Claim C1: round-trip correctness with self-delegation — for every
parameter bundle from `Setup`, every key pair from `KeyGen` under those
parameters, and every message within the embedding bound, decrypting the
self-re-encryption of the encryption of `m`,
`Decrypt(params, sk, ReEncrypt(params, ReKeyGen(sk, pk), Encrypt(params, pk, m)))`,
returns `m`. -/
theorem roundtrip_self_delegation (q p : Nat) (hq : q.Prime)
    (hp : p.Prime) (gR : ZMod q) (hR : ZMod p) (x r : ZMod q) (m : Nat)
    (hx : x ≠ 0) (hh : hR ≠ 0) (hm : m < p) :
    ((encrypt q p (setup q p gR hR) (keygen q p (setup q p gR hR) x).1 m
        r).bind fun c =>
      (re_encrypt q p (setup q p gR hR)
        (rekeygen q (keygen q p (setup q p gR hR) x).2
          (keygen q p (setup q p gR hR) x).1) c).bind fun c1 =>
        decrypt q p (setup q p gR hR) (keygen q p (setup q p gR hR) x).2
          c1) = .ok m := by
  simpa [setup, keygen] using
    pre_delegation_correct q p hq hp gR hR x x r m hx hx hh hm

/-- Witness for C1 at concrete parameters. -/
theorem roundtrip_self_delegation_witness :
    Nat.Prime 3 ∧ Nat.Prime 5 ∧ (1 : ZMod 3) ≠ 0 ∧ (2 : ZMod 5) ≠ 0 ∧
    3 < 5 ∧
    ((encrypt 3 5 (setup 3 5 1 2) (keygen 3 5 (setup 3 5 1 2) 1).1 3
        1).bind fun c =>
      (re_encrypt 3 5 (setup 3 5 1 2)
        (rekeygen 3 (keygen 3 5 (setup 3 5 1 2) 1).2
          (keygen 3 5 (setup 3 5 1 2) 1).1) c).bind fun c1 =>
        decrypt 3 5 (setup 3 5 1 2) (keygen 3 5 (setup 3 5 1 2) 1).2
          c1) = .ok 3 :=
  ⟨by norm_num, by norm_num, by decide, by decide, by decide,
    roundtrip_self_delegation 3 5 (by norm_num) (by norm_num) 1 2 1 1 3
      (by decide) (by decide) (by decide)⟩

/-- Claim C2: delegation correctness — for every two key pairs generated
under the same parameters and `rk = ReKeyGen(skA, pkB)`, decrypting with
B's secret key the re-encryption under `rk` of a ciphertext encrypted
for A returns the original message. -/
theorem delegation_correctness (q p : Nat) (hq : q.Prime)
    (hp : p.Prime) (gR : ZMod q) (hR : ZMod p) (a b r : ZMod q)
    (m : Nat) (ha : a ≠ 0) (hb : b ≠ 0) (hh : hR ≠ 0) (hm : m < p) :
    ((encrypt q p (setup q p gR hR) (keygen q p (setup q p gR hR) a).1 m
        r).bind fun c =>
      (re_encrypt q p (setup q p gR hR)
        (rekeygen q (keygen q p (setup q p gR hR) a).2
          (keygen q p (setup q p gR hR) b).1) c).bind fun c1 =>
        decrypt q p (setup q p gR hR) (keygen q p (setup q p gR hR) b).2
          c1) = .ok m := by
  simpa [setup, keygen] using
    pre_delegation_correct q p hq hp gR hR a b r m ha hb hh hm

/-- Witness for C2 at concrete parameters with two distinct key pairs. -/
theorem delegation_correctness_witness :
    Nat.Prime 3 ∧ Nat.Prime 5 ∧ (1 : ZMod 3) ≠ 0 ∧ (2 : ZMod 3) ≠ 0 ∧
    (2 : ZMod 5) ≠ 0 ∧ 3 < 5 ∧
    ((encrypt 3 5 (setup 3 5 1 2) (keygen 3 5 (setup 3 5 1 2) 1).1 3
        1).bind fun c =>
      (re_encrypt 3 5 (setup 3 5 1 2)
        (rekeygen 3 (keygen 3 5 (setup 3 5 1 2) 1).2
          (keygen 3 5 (setup 3 5 1 2) 2).1) c).bind fun c1 =>
        decrypt 3 5 (setup 3 5 1 2) (keygen 3 5 (setup 3 5 1 2) 2).2
          c1) = .ok 3 :=
  ⟨by norm_num, by norm_num, by decide, by decide, by decide, by decide,
    delegation_correctness 3 5 (by norm_num) (by norm_num) 1 2 1 2 1 3
      (by decide) (by decide) (by decide) (by decide)⟩

/-- Claim C3: single-hop enforcement — every ciphertext produced by a
successful `ReEncrypt` is Level-1, and applying `ReEncrypt` to it again
(under any parameters and any re-encryption key) fails with `WrongLevel`;
it never succeeds with an output ciphertext. -/
theorem single_hop_enforcement (q p : Nat) (pp pp' : Params q p)
    (rk rk' : ZMod q) (c c' : Ciphertext q p)
    (hsucc : re_encrypt q p pp rk c = .ok c') :
    re_encrypt q p pp' rk' c' = .error .wrongLevel := by
  cases c with
  | level2 c1 c2 c3 =>
      simp only [re_encrypt, Except.ok.injEq] at hsucc
      subst hsucc
      rfl
  | level1 c1 c3 => simp [re_encrypt] at hsucc

/-- Witness for C3: a concrete Level-2 ciphertext is transformed once,
and the second transform fails with `WrongLevel`. -/
theorem single_hop_enforcement_witness :
    re_encrypt 3 5 (setup 3 5 1 2) 1 (Ciphertext.level2 1 1 1) =
      .ok (Ciphertext.level1 1 1) ∧
    re_encrypt 3 5 (setup 3 5 1 2) 1 (Ciphertext.level1 1 1) =
      .error .wrongLevel :=
  ⟨rfl, single_hop_enforcement 3 5 (setup 3 5 1 2) (setup 3 5 1 2) 1 1
    (Ciphertext.level2 1 1 1) (Ciphertext.level1 1 1) rfl⟩

/-- Claim C4: level enforcement on `Decrypt` — calling `Decrypt` directly
on any Level-2 (untransformed) ciphertext fails with `WrongLevel` rather
than returning a byte string. -/
theorem decrypt_level2_wrong_level (q p : Nat) (pp : Params q p)
    (sk : ZMod q) (c1 c2 : ZMod q) (c3 : ZMod p) :
    decrypt q p pp sk (.level2 c1 c2 c3) = .error .wrongLevel := rfl

/-- Claim C5: mismatched-key decryption is silent — `Decrypt` on any
Level-1 ciphertext with any secret key (in particular one that does not
match the key the ciphertext was transformed toward) returns some byte
string, never an error: the scheme performs no integrity or authenticity
check. -/
theorem decrypt_level1_no_error (q p : Nat) (pp : Params q p)
    (sk : ZMod q) (c1 : ZMod q) (c3 : ZMod p) :
    ∃ m : Nat, decrypt q p pp sk (.level1 c1 c3) = .ok m :=
  ⟨decodeMessage p (c3 * rinv p (pp.h ^ (c1 * zinv q sk).val)), rfl⟩

/-- Claim C8: embedding-bound boundary — `Encrypt` succeeds on the
message whose integer encoding is exactly the embedding bound `p - 1`
(the largest value `< p`), and fails with `PayloadTooLarge` on every
message whose integer encoding exceeds the bound. -/
theorem embedding_bound_boundary (q p : Nat) (hp : 0 < p)
    (pp : Params q p) (pk r : ZMod q) (m : Nat) (hm : p ≤ m) :
    (∃ c, encrypt q p pp pk (p - 1) r = .ok c) ∧
    encrypt q p pp pk m r = .error .payloadTooLarge := by
  constructor
  · refine ⟨.level2 (pp.g * r) (pk * r)
      (((p - 1 : Nat) : ZMod p) * pp.h ^ (pp.g * pp.g * r).val), ?_⟩
    simp [encrypt, encodeMessage, Nat.sub_lt hp Nat.one_pos]
  · simp [encrypt, encodeMessage, Nat.not_lt.mpr hm]

/-- Witness for C8 at modulus 5: value 4 embeds, value 5 is rejected. -/
theorem embedding_bound_boundary_witness :
    0 < 5 ∧ 5 ≤ 5 ∧
    (∃ c, encrypt 3 5 (setup 3 5 1 2) 1 4 1 = .ok c) ∧
    encrypt 3 5 (setup 3 5 1 2) 1 5 1 = .error .payloadTooLarge :=
  ⟨by decide, by decide,
    (embedding_bound_boundary 3 5 (by decide) (setup 3 5 1 2) 1 1 5
      (by decide)).1,
    (embedding_bound_boundary 3 5 (by decide) (setup 3 5 1 2) 1 1 5
      (by decide)).2⟩

/-! ## Serialization codec (src `retrieve_params`, `retrieve_cipher`,
`serialize_group_element`, `deserialize_group_element`,
`serialize_cipher`)

The byte codecs of the two arithmetic providers (`objectToBytes` /
`bytesToObject` of `charm`) are modelled from the spec as the canonical
encoding of an element (its representative below the modulus); decoding
rejects malformed (non-canonical) input.  The routing of fields to
providers is translated from the source: `retrieve_cipher` and
`serialize_cipher` use the residue group (`IntegerGroup()`) exactly for
the field named `'c3'` and the pairing group (`group_obj`) for every
other field. -/

/-- The two group arithmetic providers of the artifact: the pairing
group handle `group_obj` and the residue group `IntegerGroup()`. -/
inductive GroupKind where
  | pairing
  | residue
deriving DecidableEq, Repr

/-- A value stored in a ciphertext envelope: either a pairing-group
element or a residue-group element (the mixed layout of spec §3). -/
inductive CipherElem (q p : Nat) where
  | pairingEl (x : ZMod q)
  | residueEl (x : ZMod p)
deriving DecidableEq, Repr

/-- Modelled from the spec: a provider's canonical element encoding
(`objectToBytes`) — deterministic, defined exactly on the elements of
that provider's group. -/
def encodeElem (q p : Nat) : GroupKind → CipherElem q p → Option Nat
  | .pairing, .pairingEl x => some x.val
  | .residue, .residueEl x => some x.val
  | _, _ => none

/-- Modelled from the spec: a provider's element decoding
(`bytesToObject`) — fails on malformed (non-canonical) input. -/
def decodeElem (q p : Nat) : GroupKind → Nat → Option (CipherElem q p)
  | .pairing, n => if n < q then some (.pairingEl (n : ZMod q)) else none
  | .residue, n => if n < p then some (.residueEl (n : ZMod p)) else none

/-- The provider a ciphertext field is routed through, from the source:
`IntegerGroup()` exactly when the key is `'c3'`, `group_obj`
otherwise. -/
def providerFor (key : String) : GroupKind :=
  if key = "c3" then .residue else .pairing

/-- src `serialize_cipher`: encode every (key, element) entry with the
provider selected by the entry's key. -/
def serialize_cipher (q p : Nat) :
    List (String × CipherElem q p) → Option (List (String × Nat))
  | [] => some []
  | (k, e) :: rest =>
      match encodeElem q p (providerFor k) e,
          serialize_cipher q p rest with
      | some n, some s => some ((k, n) :: s)
      | _, _ => none

/-- src `retrieve_cipher`: decode every (key, value) entry with the
provider selected by the entry's key. -/
def retrieve_cipher (q p : Nat) :
    List (String × Nat) → Option (List (String × CipherElem q p))
  | [] => some []
  | (k, n) :: rest =>
      match decodeElem q p (providerFor k) n,
          retrieve_cipher q p rest with
      | some e, some c => some ((k, e) :: c)
      | _, _ => none

/-- src `serialize_group_element` applied with the pairing group. -/
def serialize_group_element (q : Nat) (x : ZMod q) : Nat := x.val

/-- src `deserialize_group_element` applied with the pairing group. -/
def deserialize_group_element (q : Nat) (n : Nat) : Option (ZMod q) :=
  if n < q then some (n : ZMod q) else none

/-- The parameter-envelope encoding loop of the `--setup` branch: every
field is encoded with the pairing group. -/
def serialize_params (q : Nat) (ps : List (String × ZMod q)) :
    List (String × Nat) :=
  ps.map fun kv => (kv.1, serialize_group_element q kv.2)

/-- src `retrieve_params`: every field is decoded with the pairing
group. -/
def retrieve_params (q : Nat) :
    List (String × Nat) → Option (List (String × ZMod q))
  | [] => some []
  | (k, n) :: rest =>
      match deserialize_group_element q n, retrieve_params q rest with
      | some x, some ps => some ((k, x) :: ps)
      | _, _ => none

/-- Decoding a provider's encoding of one of its elements returns the
element. -/
lemma decodeElem_encodeElem (q p : Nat) (hq : 0 < q) (hp : 0 < p)
    (g : GroupKind) (e : CipherElem q p) (n : Nat)
    (henc : encodeElem q p g e = some n) :
    decodeElem q p g n = some e := by
  haveI : NeZero q := ⟨by omega⟩
  haveI : NeZero p := ⟨by omega⟩
  cases g <;> cases e <;>
    simp only [encodeElem, Option.some.injEq, reduceCtorEq] at henc <;>
    subst henc <;>
    simp [decodeElem, ZMod.val_lt, ZMod.natCast_rightInverse _]

/-- Round trip of the cipher envelope codec. -/
lemma retrieve_serialize_cipher (q p : Nat) (hq : 0 < q) (hp : 0 < p)
    (c : List (String × CipherElem q p)) (s : List (String × Nat))
    (hs : serialize_cipher q p c = some s) :
    retrieve_cipher q p s = some c := by
  induction c generalizing s with
  | nil =>
      simp only [serialize_cipher, Option.some.injEq] at hs
      subst hs
      rfl
  | cons kv rest ih =>
      obtain ⟨k, e⟩ := kv
      cases h1 : encodeElem q p (providerFor k) e with
      | none => simp [serialize_cipher, h1] at hs
      | some n =>
          cases h2 : serialize_cipher q p rest with
          | none => simp [serialize_cipher, h1, h2] at hs
          | some s' =>
              simp only [serialize_cipher, h1, h2, Option.some.injEq]
                at hs
              subst hs
              simp [retrieve_cipher,
                decodeElem_encodeElem q p hq hp _ _ _ h1, ih s' h2]

/-- Round trip of the parameter envelope codec. -/
lemma retrieve_serialize_params (q : Nat) (hq : 0 < q)
    (ps : List (String × ZMod q)) :
    retrieve_params q (serialize_params q ps) = some ps := by
  haveI : NeZero q := ⟨by omega⟩
  induction ps with
  | nil => rfl
  | cons kv rest ih =>
      simp [serialize_params, retrieve_params, serialize_group_element,
        deserialize_group_element, ZMod.val_lt,
        ZMod.natCast_rightInverse _, serialize_params] at ih ⊢
      simp [ih]

/-- Claim C6: codec provider routing by field name — the serialization
codec encodes and decodes exactly the field named `'c3'` through the
residue-group codec and every other field through the pairing-group
codec; the provider is selected by field identity (`providerFor` depends
only on the key, for every position in the envelope). -/
theorem codec_provider_routing (q p : Nat) :
    (∀ k : String, providerFor k = .residue ↔ k = "c3") ∧
    (∀ (c : List (String × CipherElem q p)) (s : List (String × Nat)),
      serialize_cipher q p c = some s →
      ∀ i, ∀ hi : i < c.length,
        ∃ n, encodeElem q p (providerFor (c.get ⟨i, hi⟩).1)
            (c.get ⟨i, hi⟩).2 = some n ∧
          s.get? i = some ((c.get ⟨i, hi⟩).1, n)) ∧
    (∀ (s : List (String × Nat)) (c : List (String × CipherElem q p)),
      retrieve_cipher q p s = some c →
      ∀ i, ∀ hi : i < s.length,
        ∃ e, decodeElem q p (providerFor (s.get ⟨i, hi⟩).1)
            (s.get ⟨i, hi⟩).2 = some e ∧
          c.get? i = some ((s.get ⟨i, hi⟩).1, e)) := by
  refine ⟨?_, ?_, ?_⟩
  · intro k
    by_cases hk : k = "c3" <;> simp [providerFor, hk]
  · intro c
    induction c with
    | nil => intro s _ i hi; exact absurd hi (by simp)
    | cons kv rest ih =>
        obtain ⟨k, e⟩ := kv
        intro s hs i hi
        cases h1 : encodeElem q p (providerFor k) e with
        | none => simp [serialize_cipher, h1] at hs
        | some n =>
            cases h2 : serialize_cipher q p rest with
            | none => simp [serialize_cipher, h1, h2] at hs
            | some s' =>
                simp only [serialize_cipher, h1, h2, Option.some.injEq]
                  at hs
                subst hs
                cases i with
                | zero => exact ⟨n, h1, rfl⟩
                | succ j => exact ih s' h2 j (by simpa using hi)
  · intro s
    induction s with
    | nil => intro c _ i hi; exact absurd hi (by simp)
    | cons kv rest ih =>
        obtain ⟨k, n⟩ := kv
        intro c hc i hi
        cases h1 : decodeElem q p (providerFor k) n with
        | none => simp [retrieve_cipher, h1] at hc
        | some e =>
            cases h2 : retrieve_cipher q p rest with
            | none => simp [retrieve_cipher, h1, h2] at hc
            | some c' =>
                simp only [retrieve_cipher, h1, h2, Option.some.injEq]
                  at hc
                subst hc
                cases i with
                | zero => exact ⟨e, h1, rfl⟩
                | succ j => exact ih c' h2 j (by simpa using hi)

/-- Witness for C6: in a concrete two-field envelope, the second field
`'c3'` is routed through the residue-group codec on both directions. -/
theorem codec_provider_routing_witness :
    providerFor "c3" = GroupKind.residue ∧
    serialize_cipher 3 5
      [("c1", CipherElem.pairingEl 2), ("c3", CipherElem.residueEl 4)] =
      some [("c1", 2), ("c3", 4)] ∧
    (∃ n, encodeElem 3 5 (providerFor "c3")
        (CipherElem.residueEl (4 : ZMod 5)) = some n ∧
      ([(("c1" : String), (2 : Nat)), ("c3", 4)]).get? 1 =
        some ("c3", n)) ∧
    (∃ e, decodeElem 3 5 (providerFor "c3") 4 = some e ∧
      ([("c1", CipherElem.pairingEl (2 : ZMod 3)),
        ("c3", CipherElem.residueEl (4 : ZMod 5))]).get? 1 =
        some ("c3", e)) :=
  ⟨((codec_provider_routing 3 5).1 "c3").mpr rfl, rfl,
    (codec_provider_routing 3 5).2.1
      [("c1", CipherElem.pairingEl 2), ("c3", CipherElem.residueEl 4)]
      [("c1", 2), ("c3", 4)] rfl 1 (by decide),
    (codec_provider_routing 3 5).2.2
      [("c1", 2), ("c3", 4)]
      [("c1", CipherElem.pairingEl 2), ("c3", CipherElem.residueEl 4)]
      rfl 1 (by decide)⟩

/-- Claim C7: serialization round-trip and determinism — decoding the
encoding of a group element, a parameter envelope, or a ciphertext
envelope returns the original structure, and encoding is deterministic
(the codec is a pure function: equal inputs give identical bytes). -/
theorem serialization_roundtrip (q p : Nat) (hq : 0 < q) (hp : 0 < p) :
    (∀ x : ZMod q,
      deserialize_group_element q (serialize_group_element q x) =
        some x) ∧
    (∀ ps : List (String × ZMod q),
      retrieve_params q (serialize_params q ps) = some ps) ∧
    (∀ (c : List (String × CipherElem q p)) (s : List (String × Nat)),
      serialize_cipher q p c = some s → retrieve_cipher q p s = some c) ∧
    (∀ x y : ZMod q, x = y →
      serialize_group_element q x = serialize_group_element q y) ∧
    (∀ c c' : List (String × CipherElem q p), c = c' →
      serialize_cipher q p c = serialize_cipher q p c') := by
  haveI : NeZero q := ⟨by omega⟩
  refine ⟨?_, retrieve_serialize_params q hq,
    retrieve_serialize_cipher q p hq hp, ?_, ?_⟩
  · intro x
    simp [serialize_group_element, deserialize_group_element,
      ZMod.val_lt, ZMod.natCast_rightInverse _]
  · intro x y hxy; rw [hxy]
  · intro c c' hcc; rw [hcc]

/-- Witness for C7 at concrete structures. -/
theorem serialization_roundtrip_witness :
    deserialize_group_element 3 (serialize_group_element 3 (2 : ZMod 3)) =
      some 2 ∧
    retrieve_params 3 (serialize_params 3 [("g", (2 : ZMod 3))]) =
      some [("g", 2)] ∧
    retrieve_cipher 3 5 [("c1", 2), ("c3", 4)] =
      some [("c1", CipherElem.pairingEl 2),
        ("c3", CipherElem.residueEl 4)] :=
  ⟨(serialization_roundtrip 3 5 (by decide) (by decide)).1 2,
    (serialization_roundtrip 3 5 (by decide) (by decide)).2.1
      [("g", 2)],
    (serialization_roundtrip 3 5 (by decide) (by decide)).2.2.1
      [("c1", CipherElem.pairingEl 2), ("c3", CipherElem.residueEl 4)]
      [("c1", 2), ("c3", 4)] rfl⟩

/-! ## Command surface (src `--decrypt`, `--rekeygen`, `--re-encrypt`
branches) -/

/-- Decoding a serialized single group element returns the element. -/
lemma deserialize_serialize (q : Nat) (hq : 0 < q) (x : ZMod q) :
    deserialize_group_element q (serialize_group_element q x) = some x := by
  haveI : NeZero q := ⟨by omega⟩
  simp [serialize_group_element, deserialize_group_element, ZMod.val_lt,
    ZMod.natCast_rightInverse _]

/-- The field-named envelope of a ciphertext, as the source builds it:
keys `c1`, `c2`, `c3` for Level-2 and `c1`, `c3` for Level-1, with `c3`
the residue-group payload. -/
def cipherToEnvelope (q p : Nat) :
    Ciphertext q p → List (String × CipherElem q p)
  | .level2 c1 c2 c3 =>
      [("c1", .pairingEl c1), ("c2", .pairingEl c2),
        ("c3", .residueEl c3)]
  | .level1 c1 c3 => [("c1", .pairingEl c1), ("c3", .residueEl c3)]

/-- Reassembling a ciphertext from its decoded field-named envelope. -/
def envelopeToCipher (q p : Nat) :
    List (String × CipherElem q p) → Option (Ciphertext q p)
  | [("c1", .pairingEl c1), ("c2", .pairingEl c2),
      ("c3", .residueEl c3)] => some (.level2 c1 c2 c3)
  | [("c1", .pairingEl c1), ("c3", .residueEl c3)] =>
      some (.level1 c1 c3)
  | _ => none

lemma serialize_cipherToEnvelope (q p : Nat) (c : Ciphertext q p) :
    ∃ s, serialize_cipher q p (cipherToEnvelope q p c) = some s := by
  cases c with
  | level2 c1 c2 c3 => exact ⟨_, rfl⟩
  | level1 c1 c3 => exact ⟨_, rfl⟩

lemma envelopeToCipher_cipherToEnvelope (q p : Nat) (c : Ciphertext q p) :
    envelopeToCipher q p (cipherToEnvelope q p c) = some c := by
  cases c <;> rfl

/-- The `--decrypt --owned` branch (src lines 110–113): self-rekeygen,
re-encrypt, then decrypt, all in one process. -/
def owned_decrypt (q p : Nat) (pp : Params q p) (pk sk : ZMod q)
    (c : Ciphertext q p) : Except PREError Nat :=
  match re_encrypt q p pp (rekeygen q sk pk) c with
  | .error e => .error e
  | .ok c1 => decrypt q p pp sk c1

/-- The explicit three-step pipeline performed via the separate
`--rekeygen` (src lines 122–125) and `--re-encrypt` (src lines 133–137)
commands followed by `--decrypt`: each command boundary passes through
the serialization codec (the rekey as a single group element, the
transformed ciphertext as a field-named envelope). -/
def three_step_decrypt (q p : Nat) (pp : Params q p) (pk sk : ZMod q)
    (c : Ciphertext q p) : Except PREError Nat :=
  match deserialize_group_element q
      (serialize_group_element q (rekeygen q sk pk)) with
  | none => .error .malformedInput
  | some rk =>
      match re_encrypt q p pp rk c with
      | .error e => .error e
      | .ok c1 =>
          match serialize_cipher q p (cipherToEnvelope q p c1) with
          | none => .error .malformedInput
          | some s =>
              match retrieve_cipher q p s with
              | none => .error .malformedInput
              | some env =>
                  match envelopeToCipher q p env with
                  | none => .error .malformedInput
                  | some c2 => decrypt q p pp sk c2

/-- Claim C9: owned-flag equivalence — for every parameter bundle, key
pair, and ciphertext, the `--decrypt` command with the owned flag
computes the same result as the explicit pipeline
`rk = ReKeyGen(sk, pk); c1 = ReEncrypt(params, rk, c); Decrypt(params, sk, c1)`
performed via the separate `--rekeygen` and `--re-encrypt` commands with
serialization at each command boundary. -/
theorem owned_flag_equivalence (q p : Nat) (hq : 0 < q) (hp : 0 < p)
    (pp : Params q p) (pk sk : ZMod q) (c : Ciphertext q p) :
    three_step_decrypt q p pp pk sk c = owned_decrypt q p pp pk sk c := by
  cases hre : re_encrypt q p pp (rekeygen q sk pk) c with
  | error e =>
      simp only [three_step_decrypt, owned_decrypt,
        deserialize_serialize q hq, hre]
  | ok c1 =>
      obtain ⟨s, hs⟩ := serialize_cipherToEnvelope q p c1
      simp only [three_step_decrypt, owned_decrypt,
        deserialize_serialize q hq, hre, hs,
        retrieve_serialize_cipher q p hq hp _ _ hs,
        envelopeToCipher_cipherToEnvelope]

/-- Witness for C9 on a concrete Level-2 ciphertext. -/
theorem owned_flag_equivalence_witness :
    0 < 3 ∧ 0 < 5 ∧
    three_step_decrypt 3 5 (setup 3 5 1 2) 1 1 (Ciphertext.level2 1 1 1) =
      owned_decrypt 3 5 (setup 3 5 1 2) 1 1 (Ciphertext.level2 1 1 1) :=
  ⟨by decide, by decide,
    owned_flag_equivalence 3 5 (by decide) (by decide) (setup 3 5 1 2) 1
      1 (Ciphertext.level2 1 1 1)⟩

/-! ## UTF-8 decoding at the decrypt command surface (src line 114,
`print(m.decode('utf-8'), end='')`) -/

/-- A UTF-8 continuation byte, `0x80`–`0xBF`. -/
def contByte (b : Nat) : Bool := decide (128 ≤ b) && decide (b ≤ 191)

/-- Strict UTF-8 validity of a byte string, the condition under which
Python's `bytes.decode('utf-8')` succeeds: it rejects stray continuation
bytes, truncated sequences, overlong encodings, surrogates and code
points above `U+10FFFF`. -/
def validUtf8 : List Nat → Bool
  | [] => true
  | b :: rest =>
    if b ≤ 127 then validUtf8 rest
    else if 194 ≤ b ∧ b ≤ 223 then
      match rest with
      | b1 :: rest1 => contByte b1 && validUtf8 rest1
      | [] => false
    else if b = 224 then
      match rest with
      | b1 :: b2 :: rest2 =>
          (decide (160 ≤ b1) && decide (b1 ≤ 191)) && contByte b2 &&
            validUtf8 rest2
      | _ => false
    else if (225 ≤ b ∧ b ≤ 236) ∨ b = 238 ∨ b = 239 then
      match rest with
      | b1 :: b2 :: rest2 => contByte b1 && contByte b2 && validUtf8 rest2
      | _ => false
    else if b = 237 then
      match rest with
      | b1 :: b2 :: rest2 =>
          (decide (128 ≤ b1) && decide (b1 ≤ 159)) && contByte b2 &&
            validUtf8 rest2
      | _ => false
    else if b = 240 then
      match rest with
      | b1 :: b2 :: b3 :: rest3 =>
          (decide (144 ≤ b1) && decide (b1 ≤ 191)) && contByte b2 &&
            contByte b3 && validUtf8 rest3
      | _ => false
    else if 241 ≤ b ∧ b ≤ 243 then
      match rest with
      | b1 :: b2 :: b3 :: rest3 =>
          contByte b1 && contByte b2 && contByte b3 && validUtf8 rest3
      | _ => false
    else if b = 244 then
      match rest with
      | b1 :: b2 :: b3 :: rest3 =>
          (decide (128 ≤ b1) && decide (b1 ≤ 143)) && contByte b2 &&
            contByte b3 && validUtf8 rest3
      | _ => false
    else false

/-- Errors surfaced by the decrypt command: a scheme error, or the
`UnicodeDecodeError` raised by `m.decode('utf-8')`. -/
inductive CmdError where
  | preError (e : PREError)
  | unicodeDecodeError
deriving DecidableEq, Repr

/-- Big-endian base-256 digits of a natural number, fuel-based. -/
def byteDigitsAux : Nat → Nat → List Nat
  | 0, _ => []
  | _ + 1, 0 => []
  | fuel + 1, n + 1 => ((n + 1) % 256) :: byteDigitsAux fuel ((n + 1) / 256)

/-- The byte string of the integer a recovered message decodes to. -/
def natToBytes (n : Nat) : List Nat := (byteDigitsAux n n).reverse

/-- The `--decrypt` branch of the command surface (src lines 99–114,
without the owned flag): run `pre.decrypt`, then UTF-8-decode the
recovered bytes for printing; invalid UTF-8 raises instead of
printing. -/
def decrypt_cmd (q p : Nat) (pp : Params q p) (sk : ZMod q)
    (c : Ciphertext q p) : Except CmdError (List Nat) :=
  match decrypt q p pp sk c with
  | .error e => .error (.preError e)
  | .ok m =>
      if validUtf8 (natToBytes m) then .ok (natToBytes m)
      else .error .unicodeDecodeError

/-- Claim C10: the decrypt command UTF-8-decodes the recovered plaintext
bytes before printing — whenever `pre.decrypt` returns bytes that are
not valid UTF-8 (as can occur under a mismatched secret key), the
command fails with a decoding error instead of printing a byte string,
so the scheme-level "returns some byte string, no exception" behavior
does not extend to the command surface. -/
theorem decrypt_cmd_utf8_error (q p : Nat) (pp : Params q p)
    (sk : ZMod q) (c1 : ZMod q) (c3 : ZMod p) (m : Nat)
    (hrec : decrypt q p pp sk (.level1 c1 c3) = .ok m)
    (hbad : validUtf8 (natToBytes m) = false) :
    decrypt_cmd q p pp sk (.level1 c1 c3) =
      .error .unicodeDecodeError := by
  simp [decrypt_cmd, hrec, hbad]

/-- Witness for C10: with modulus 257, a Level-1 ciphertext decrypting
to the byte `0xFF` (not valid UTF-8) makes the command fail. -/
theorem decrypt_cmd_utf8_error_witness :
    decrypt 3 257 (setup 3 257 1 1) 1 (Ciphertext.level1 0 255) =
      .ok 255 ∧
    validUtf8 (natToBytes 255) = false ∧
    decrypt_cmd 3 257 (setup 3 257 1 1) 1 (Ciphertext.level1 0 255) =
      .error .unicodeDecodeError :=
  ⟨rfl, by decide,
    decrypt_cmd_utf8_error 3 257 (setup 3 257 1 1) 1 0 255 255 rfl
      (by decide)⟩

end SecureCloudPRE
